import Mathlib

/-!
Shallow embedding of the milvus-storage core (Go implementation in
src/go/storage/space.go, C++ fragments in src/cpp/src/storage/).

Pure functions of the source become Lean functions; the stateful parts of
`Space` (Write, Delete, WriteBlob, Open, Read) become explicit state
passing over `SpaceState`.  Filesystem effects are abstracted to the
observations the claims speak about: the list of data files opened, the
list of manifests published, and whether the manifest save succeeded.
int64 values are modelled as `Int` (no arithmetic here comes close to
overflow), Arrow record batches as lists of named columns plus a row
count, and the parquet writer as its file path and running row count.
-/

namespace MilvusStorage

/-- A fragment: an id plus an ordered list of file paths
(go/file/fragment, as described by the spec §3: a fragment is
`(fragment_id, files, kind)`; the kind is given by which manifest list
holds it). -/
structure Fragment where
  fragmentId : Int
  files : List String
deriving Repr, DecidableEq

/-- A blob entry of a manifest (go/file/blob.Blob: name, size, file). -/
structure Blob where
  name : String
  size : Int
  file : String
deriving Repr, DecidableEq

/-- A manifest.  Modelled from the spec §3 (the go/storage/manifest
package is not under src/): user schema plus derived scalar and vector
field-name lists, three ordered fragment lists, blob entries and a
version.  Schemas are modelled by their field-name lists, which is all
`Space.Write`/`Space.write` consult (`FieldsByName`, `Equal`). -/
structure Manifest where
  version : Int
  schemaFields : List String
  scalarFields : List String
  vectorFields : List String
  scalarFragments : List Fragment
  vectorFragments : List Fragment
  deleteFragments : List Fragment
  blobs : List Blob
deriving Repr, DecidableEq

/-- Modelled from the spec: `Manifest.HasBlob` of the missing manifest
package; blob names are unique within a manifest, lookup is by name. -/
def Manifest.hasBlob (m : Manifest) (name : String) : Bool :=
  m.blobs.any (fun b => b.name = name)

/-- Modelled from the spec §4.8: `Manifest.AddBlob` adds the entry or
replaces the entry of the same name. -/
def addBlob (bs : List Blob) (b : Blob) : List Blob :=
  if bs.any (fun x => x.name = b.name) then
    bs.map (fun x => if x.name = b.name then b else x)
  else bs ++ [b]

/-- The mutable state of a `Space` (space.go:38-45): root path, current
manifest pointer, the delete-fragment vector handed to reads, and
`nextManifestVersion`. -/
structure SpaceState where
  path : String
  manifest : Manifest
  deleteFragments : List Fragment
  nextManifestVersion : Int
deriving Repr, DecidableEq

/-! Path helpers.  Modelled from the spec: the go/common/utils package is
not under src/; spec §4.1 and §6 fix the layout `manifest/`, `scalar/`,
`vector/`, `delete/`, `blob/` under the Space root, `manifest/<version>.mf`
for committed manifests and `manifest/<version>.mf.tmp` for in-flight
ones.  Fresh data-file names are random and collision-resistant in the
source; the model draws them deterministically from a counter, which
preserves everything the claims consult (the directory prefix and
freshness within a call). -/

def getManifestDir (root : String) : String := root ++ "/manifest"

def getScalarDataDir (root : String) : String := root ++ "/scalar"

def getVectorDataDir (root : String) : String := root ++ "/vector"

def getDeleteDataDir (root : String) : String := root ++ "/delete"

def getBlobDir (root : String) : String := root ++ "/blob"

def getManifestFilePath (dir : String) (version : Int) : String :=
  dir ++ "/" ++ toString version ++ ".mf"

def getManifestTmpFilePath (dir : String) (version : Int) : String :=
  dir ++ "/" ++ toString version ++ ".mf.tmp"

def getNewParquetFilePath (dir : String) (fresh : Nat) : String :=
  dir ++ "/f" ++ toString fresh ++ ".parquet"

def getBlobFilePath (dir : String) : String := dir ++ "/b0"

/-- The temporary path `safeSaveManifest` writes to (space.go:188:
`utils.GetManifestTmpFilePath(utils.GetManifestDir(path), m.Version())`). -/
def safeSaveTmpPath (root : String) (version : Int) : String :=
  getManifestTmpFilePath (getManifestDir root) version

/-- The committed path `safeSaveManifest` renames to (space.go:189:
`utils.GetManifestFilePath(utils.GetManifestDir(path), m.Version())`). -/
def safeSaveFinalPath (root : String) (version : Int) : String :=
  getManifestFilePath (getManifestDir root) version

/-- The path `Open` loads the selected manifest from (space.go:369:
`utils.GetManifestFilePath(path, version)` — note the first argument is
the Space root itself, not `utils.GetManifestDir(path)`). -/
def openLoadPath (root : String) (version : Int) : String :=
  getManifestFilePath root version

/-! Arrow records.  A cell is an int64 or a string; a record batch is a
row count plus named columns.  Only the shapes `Space.Write` consults are
kept: `NumRows`, `ColumnName`/`Columns` (as the name-value pairs) and
schema field-name membership. -/

/-- A single cell value of a column. -/
inductive CellValue
  | int (i : Int)
  | str (s : String)
deriving Repr, DecidableEq

/-- An Arrow record batch: named columns plus a row count. -/
structure Record where
  columns : List (String × List CellValue)
  numRows : Nat
deriving Repr, DecidableEq

/-- Column projection of `Space.write` (space.go:215-222): keep the
columns of `rec` whose name is a field of `schema`, in record order. -/
def projectedColumns (schema : List String) (rec : Record) : List (List CellValue) :=
  (rec.columns.filter (fun c => schema.contains c.1)).map (fun c => c.2)

/-- The synthetic offset column of the Go `Space.write`
(space.go:226-233): `offsetValues[i] = int64(i)` for `i = 0 .. NumRows-1`. -/
def goOffsetValues (numRows : Nat) : List Int :=
  (List.range numRows).map (fun i => (i : Int))

/-- The offset column of the C++ `DefaultSpace::Write`
(default_space.cpp:95-99): `std::iota(offset_values.begin(),
offset_values.end(), offset)`, i.e. `offset, offset+1, …`. -/
def cppOffsetValues (offset : Int) (numRows : Nat) : List Int :=
  (List.range numRows).map (fun i => offset + (i : Int))

/-- The starting value of the C++ offset counter
(default_space.cpp:77: `int64_t offset = 1;`); it is reset to 1 on file
roll-over (default_space.cpp:133) and never otherwise changed. -/
def cppInitialOffset : Int := 1

/-- The column list of the record a `Space.write` call hands its format
writer (space.go:215-242): the projected columns, with the synthetic
offset column appended when `isScalar`. -/
def buildRecord (schema : List String) (rec : Record) (s : Bool) : List (List CellValue) :=
  if s then
    projectedColumns schema rec ++ [(goOffsetValues rec.numRows).map CellValue.int]
  else
    projectedColumns schema rec

/-! The Space operations. -/

/-- Errors `Space` operations return (space.go:29-36 plus the inline
short-write and manifest-save errors). -/
inductive GoError
  | schemaNotMatch
  | blobAlreadyExist
  | shortWrite (written expected : Nat)
  | saveManifestFailed
deriving Repr, DecidableEq

/-- The filesystem behaviour the claims observe: whether
`safeSaveManifest`'s write-plus-rename succeeds, and how many bytes the
blob file write reports. -/
structure Fs where
  saveOk : Bool
  blobWriteBytes : Nat → Nat

/-- A format writer (io/format/parquet), reduced to what `Space.write`
consults: its file path and its running row count (`Count()`). -/
structure WriterState where
  filePath : String
  count : Nat
deriving Repr, DecidableEq

/-- Write options (option.WriteOptions): the roll-over threshold. -/
structure WriteOptions where
  maxRecordPerFile : Int
deriving Repr, DecidableEq

/-- The observable outcome of a Space operation: the returned error (if
any), the Space state after the call, the data files the call opened and
the manifests it published (committed via rename). -/
structure Outcome where
  err : Option GoError
  state : SpaceState
  opened : List String
  published : List Manifest
deriving Repr, DecidableEq

/-- One `s.write(schema, rec, writer, fragment, opt, isScalar)` call of
the Go Write loop (space.go:206-268): open a fresh parquet file and add
it to the fragment when the writer is nil, write the projected record
(the writer row count grows by the batch row count), and close the
writer (returning nil) once its count reaches `MaxRecordPerFile`. -/
structure StepResult where
  writer : Option WriterState
  frag : Fragment
  fresh : Nat
  opened : List String
deriving Repr, DecidableEq

def spaceWriteStep (root : String) (rec : Record) (writer : Option WriterState)
    (frag : Fragment) (opt : WriteOptions) (s : Bool) (fresh : Nat) : StepResult :=
  let rootPath := if s then getScalarDataDir root else getVectorDataDir root
  let afterOpen : StepResult :=
    match writer with
    | none =>
        let fp := getNewParquetFilePath rootPath fresh
        { writer := some { filePath := fp, count := 0 },
          frag := { frag with files := frag.files ++ [fp] },
          fresh := fresh + 1, opened := [fp] }
    | some w => { writer := some w, frag := frag, fresh := fresh, opened := [] }
  let w : WriterState :=
    { filePath := (afterOpen.writer.getD { filePath := "", count := 0 }).filePath,
      count := (afterOpen.writer.getD { filePath := "", count := 0 }).count + rec.numRows }
  if opt.maxRecordPerFile ≤ (w.count : Int) then
    { afterOpen with writer := none }
  else
    { afterOpen with writer := some w }

/-- The loop state of `Space.Write` (space.go:73-95): the two writers,
the two fragments under construction, the fresh-name counter and the
files opened so far. -/
structure WriteLoopState where
  scalarWriter : Option WriterState
  vectorWriter : Option WriterState
  scalarFragment : Fragment
  vectorFragment : Fragment
  fresh : Nat
  opened : List String
deriving Repr, DecidableEq

/-- The batch loop of `Space.Write` (space.go:80-95): batches with zero
rows are skipped; every other batch goes through `Space.write` once for
the scalar side and once for the vector side. -/
def spaceWriteLoop (root : String) (opt : WriteOptions) :
    List Record → WriteLoopState → WriteLoopState
  | [], st => st
  | rec :: rest, st =>
      if rec.numRows = 0 then spaceWriteLoop root opt rest st
      else
        let r1 := spaceWriteStep root rec st.scalarWriter st.scalarFragment opt true st.fresh
        let r2 := spaceWriteStep root rec st.vectorWriter st.vectorFragment opt false r1.fresh
        spaceWriteLoop root opt rest
          { scalarWriter := r1.writer, vectorWriter := r2.writer,
            scalarFragment := r1.frag, vectorFragment := r2.frag,
            fresh := r2.fresh, opened := st.opened ++ r1.opened ++ r2.opened }

/-- The loop state `Space.Write` starts from (space.go:73-78): nil
writers and two fragments created with `NewFragment(s.manifest.Version())`. -/
def initialWriteLoopState (s : SpaceState) : WriteLoopState :=
  { scalarWriter := none, vectorWriter := none,
    scalarFragment := { fragmentId := s.manifest.version, files := [] },
    vectorFragment := { fragmentId := s.manifest.version, files := [] },
    fresh := 0, opened := [] }

/-- The manifest a successful `Space.Write` publishes (space.go:110-122):
the current manifest copied, version set to `nextManifestVersion`, and
the two loop fragments appended after `SetFragmentId(nextVersion)`. -/
def writePublishedManifest (s : SpaceState) (st : WriteLoopState) : Manifest :=
  { s.manifest with
    version := s.nextManifestVersion,
    scalarFragments :=
      s.manifest.scalarFragments ++ [{ st.scalarFragment with fragmentId := s.nextManifestVersion }],
    vectorFragments :=
      s.manifest.vectorFragments ++ [{ st.vectorFragment with fragmentId := s.nextManifestVersion }] }

/-- `Space.Write` (space.go:66-132).  The schema-equality check comes
first; then the batch loop; then — unconditionally, whether or not any
batch was written — the manifest publication: copy, set version to
`nextManifestVersion`, append both fragments, save.  On a successful
save the in-memory manifest is swapped and `nextManifestVersion`
incremented; on a failed save the state is left untouched. -/
def spaceWrite (s : SpaceState) (fs : Fs) (readerSchema : List String)
    (batches : List Record) (opt : WriteOptions) : Outcome :=
  if s.manifest.schemaFields ≠ readerSchema then
    { err := some GoError.schemaNotMatch, state := s, opened := [], published := [] }
  else
    let st := spaceWriteLoop s.path opt batches (initialWriteLoopState s)
    let copied := writePublishedManifest s st
    if fs.saveOk then
      { err := none,
        state := { s with manifest := copied,
                          nextManifestVersion := s.nextManifestVersion + 1 },
        opened := st.opened, published := [copied] }
    else
      { err := some GoError.saveManifestFailed, state := s,
        opened := st.opened, published := [] }

/-- The loop state of `Space.Delete` (space.go:138-161): the single
delete-file writer, the delete file path, the fresh counter and the
opened files. -/
structure DeleteLoopState where
  writer : Option WriterState
  deleteFile : String
  fresh : Nat
  opened : List String
deriving Repr, DecidableEq

/-- The batch loop of `Space.Delete` (space.go:144-161): zero-row
batches are skipped; the first positive batch opens the (single) delete
file; every positive batch is written through the writer. -/
def spaceDeleteLoop (root : String) : List Record → DeleteLoopState → DeleteLoopState
  | [], st => st
  | rec :: rest, st =>
      if rec.numRows = 0 then spaceDeleteLoop root rest st
      else
        let st1 : DeleteLoopState :=
          match st.writer with
          | none =>
              let fp := getNewParquetFilePath (getDeleteDataDir root) st.fresh
              { writer := some { filePath := fp, count := 0 },
                deleteFile := fp, fresh := st.fresh + 1,
                opened := st.opened ++ [fp] }
          | some _ => st
        let st2 := { st1 with
          writer := st1.writer.map (fun w => { w with count := w.count + rec.numRows }) }
        spaceDeleteLoop root rest st2

/-- The manifest a publishing `Space.Delete` call commits
(space.go:170-176): the current manifest copied, version set to
`nextManifestVersion`, and the delete fragment — created by
`NewFragment(s.manifest.Version())` and retagged by `SetFragmentId` —
appended.  `Space.Delete` never calls `AddFile` on this fragment, so its
file list stays empty. -/
def deletePublishedManifest (s : SpaceState) : Manifest :=
  { s.manifest with
    version := s.nextManifestVersion,
    deleteFragments :=
      s.manifest.deleteFragments ++ [{ fragmentId := s.nextManifestVersion, files := [] }] }

/-- The tail of `Space.Delete` after the batch loop (space.go:163-184):
if no writer was ever created (no positive-row batch) return success
without touching anything; otherwise close the writer and publish the
new manifest under the save-then-swap protocol. -/
def spaceDeleteFinish (s : SpaceState) (fs : Fs) (st : DeleteLoopState) : Outcome :=
  match st.writer with
  | none => { err := none, state := s, opened := st.opened, published := [] }
  | some _ =>
      let copied := deletePublishedManifest s
      if fs.saveOk then
        { err := none,
          state := { s with manifest := copied,
                            nextManifestVersion := s.nextManifestVersion + 1 },
          opened := st.opened, published := [copied] }
      else
        { err := some GoError.saveManifestFailed, state := s,
          opened := st.opened, published := [] }

/-- `Space.Delete` (space.go:134-185): the batch loop followed by the
conditional manifest publication. -/
def spaceDelete (s : SpaceState) (fs : Fs) (batches : List Record) : Outcome :=
  spaceDeleteFinish s fs (spaceDeleteLoop s.path batches
    { writer := none, deleteFile := "", fresh := 0, opened := [] })

/-- `Space.WriteBlob` (space.go:405-447): fail `ErrBlobAlreadyExist`
when `!replace` and the manifest has the name; otherwise open a fresh
blob file, write the content, fail with the short-write error when the
reported byte count differs from `len(content)`, and otherwise publish
the new manifest (blob entry added) under the save-then-swap protocol. -/
def spaceWriteBlob (s : SpaceState) (fs : Fs) (content : List Nat)
    (name : String) (rep : Bool) : Outcome :=
  if !rep && s.manifest.hasBlob name then
    { err := some GoError.blobAlreadyExist, state := s, opened := [], published := [] }
  else
    let blobFile := getBlobFilePath (getBlobDir s.path)
    let n := fs.blobWriteBytes content.length
    if n ≠ content.length then
      { err := some (GoError.shortWrite n content.length), state := s,
        opened := [blobFile], published := [] }
    else
      let copied := { s.manifest with
        version := s.nextManifestVersion,
        blobs := addBlob s.manifest.blobs
          { name := name, size := (content.length : Int), file := blobFile } }
      if fs.saveOk then
        { err := none,
          state := { s with manifest := copied,
                            nextManifestVersion := s.nextManifestVersion + 1 },
          opened := [blobFile], published := [copied] }
      else
        { err := some GoError.saveManifestFailed, state := s,
          opened := [blobFile], published := [] }

/-! Open, init and Read (the delete-fragment plumbing of claim C1). -/

/-- `NewSpace` (space.go:55-64): the delete-fragment vector starts
empty. -/
def newSpace (path : String) (m : Manifest) (nv : Int) : SpaceState :=
  { path := path, manifest := m, deleteFragments := [], nextManifestVersion := nv }

/-- The tail of `Open` (space.go:376-378): the space is returned as
`NewSpace` built it; the `space.init()` call on the next line is
commented out in the source. -/
def openResult (path : String) (m : Manifest) (nv : Int) : SpaceState :=
  newSpace path m nv

/-- `Space.init` (space.go:47-53): append one delete-fragment handle per
delete fragment of the manifest (`fragment.Make` wraps the fragment; the
model keeps the fragment itself). -/
def spaceInit (s : SpaceState) : SpaceState :=
  { s with deleteFragments := s.deleteFragments ++ s.manifest.deleteFragments }

/-- The delete-fragment vector `Space.Read` hands to
`record_reader.MakeRecordReader` (space.go:402).  Modelled from the
spec for the missing record_reader package: the read stream's delete set
is built from exactly this vector, so it is the read's delete-fragment
source. -/
def readDeleteFragments (s : SpaceState) : List Fragment :=
  s.deleteFragments

/-! The delete-set visitor (src/cpp/src/storage/deleteset.cpp).  The
map `delete_set_` is modelled as an association list from key to the
ordered version list, with C++ `contains`, `at(..).push_back` and
`emplace` mirrored verbatim. -/

/-- C++ `delete_set_.contains(value)`. -/
def dsContains {K : Type} [DecidableEq K] (m : List (K × List Int)) (k : K) : Bool :=
  m.any (fun p => p.1 = k)

/-- C++ `delete_set_.at(value).push_back(v)`: append `v` to the version
list of key `k`. -/
def dsPushBack {K : Type} [DecidableEq K] (m : List (K × List Int)) (k : K) (v : Int) :
    List (K × List Int) :=
  m.map (fun p => if p.1 = k then (p.1, p.2 ++ [v]) else p)

/-- `DeleteSetVisitor::Visit(const arrow::Int64Array&)`
(deleteset.cpp:17-27): for each row, push the version when the key is
present, else emplace the key with the one-element version list.  The
rows are the positionwise zip of the key column with the version
column. -/
def visitInt64 (m : List (Int × List Int)) (keys : List Int) (versions : List Int) :
    List (Int × List Int) :=
  (keys.zip versions).foldl
    (fun m kv =>
      if dsContains m kv.1 then dsPushBack m kv.1 kv.2
      else m ++ [(kv.1, [kv.2])])
    m

/-- `DeleteSetVisitor::Visit(const arrow::StringArray&)`
(deleteset.cpp:29-39): for each row, push the version when the key is
present, else emplace the key with an EMPTY version list
(`std::vector<int64_t>()` — deleteset.cpp:35). -/
def visitString (m : List (String × List Int)) (keys : List String) (versions : List Int) :
    List (String × List Int) :=
  (keys.zip versions).foldl
    (fun m kv =>
      if dsContains m kv.1 then dsPushBack m kv.1 kv.2
      else m ++ [(kv.1, [])])
    m

/-! The C++ `DefaultSpace` constructor schema validation
(default_space.cpp:24-31). -/

/-- The column-role options of the C++ `SpaceOption`: primary, version
and vector column names; an empty version string means no version column
is declared. -/
structure SpaceOptions where
  primaryColumn : String
  versionColumn : String
  vectorColumn : String
deriving Repr, DecidableEq

/-- Whether the `DefaultSpace` constructor throws
(default_space.cpp:27-31): `!schema->GetFieldByName(primary) ||
!version.empty() && !schema->GetFieldByName(version)`; C++ precedence
binds `&&` tighter than `||`.  The schema is its field-name list. -/
def defaultSpaceCtorThrows (fields : List String) (o : SpaceOptions) : Bool :=
  !fields.contains o.primaryColumn ||
    (!(o.versionColumn = "") && !fields.contains o.versionColumn)

/-! Manifest invariants (claim C9). -/

/-- Every fragment id of the manifest is at most the manifest version. -/
def fragIdsBounded (m : Manifest) : Prop :=
  (∀ f ∈ m.scalarFragments, f.fragmentId ≤ m.version) ∧
  (∀ f ∈ m.vectorFragments, f.fragmentId ≤ m.version) ∧
  (∀ f ∈ m.deleteFragments, f.fragmentId ≤ m.version)

instance (m : Manifest) : Decidable (fragIdsBounded m) := by
  unfold fragIdsBounded; infer_instance

/-- A scalar fragment with a given id exists iff a vector fragment with
that id exists. -/
def svPaired (m : Manifest) : Prop :=
  ∀ v : Int,
    (∃ f ∈ m.scalarFragments, f.fragmentId = v) ↔
    (∃ f ∈ m.vectorFragments, f.fragmentId = v)

/-! Concrete values used by counterexamples and witnesses. -/

/-- A two-field user schema: primary key and vector column. -/
def exFields : List String := ["pk", "vec"]

/-- An initial manifest at version 0 with no fragments and no blobs. -/
def exManifest : Manifest :=
  { version := 0, schemaFields := exFields, scalarFields := ["pk"],
    vectorFields := ["pk", "vec"], scalarFragments := [], vectorFragments := [],
    deleteFragments := [], blobs := [] }

/-- A freshly opened space over `exManifest`. -/
def exSpace : SpaceState :=
  { path := "/s", manifest := exManifest, deleteFragments := [],
    nextManifestVersion := 1 }

/-- A filesystem on which every operation succeeds. -/
def fsOk : Fs := { saveOk := true, blobWriteBytes := fun n => n }

/-- A filesystem on which the manifest save (write or rename) fails. -/
def fsFail : Fs := { saveOk := false, blobWriteBytes := fun n => n }

/-- A filesystem whose blob write reports zero bytes written. -/
def fsShort : Fs := { saveOk := true, blobWriteBytes := fun _ => 0 }

/-- A record batch with zero rows. -/
def recZero : Record := { columns := [("pk", []), ("vec", [])], numRows := 0 }

/-- A record batch with one row. -/
def recOne : Record :=
  { columns := [("pk", [CellValue.int 5]), ("vec", [CellValue.int 9])], numRows := 1 }

/-- Default write options. -/
def exOpt : WriteOptions := { maxRecordPerFile := 10 }

/-- A delete fragment recorded in a manifest. -/
def exDeleteFrag : Fragment := { fragmentId := 1, files := ["/s/delete/f0.parquet"] }

/-- A manifest at version 1 holding one delete fragment. -/
def exManifestDel : Manifest :=
  { exManifest with version := 1, deleteFragments := [exDeleteFrag] }

/-- A space whose manifest holds the blob name "b". -/
def exSpaceBlob : SpaceState :=
  { exSpace with manifest :=
      { exManifest with blobs := [{ name := "b", size := 3, file := "/s/blob/b0" }] } }

/-- The manifest the empty-stream Write against `exSpace` publishes. -/
def exPublished : Manifest :=
  writePublishedManifest exSpace (initialWriteLoopState exSpace)

/-! Helper lemmas shared by the claim theorems. -/

/-- When no batch has a positive row count, the Write batch loop leaves
its state untouched. -/
theorem spaceWriteLoop_all_zero (root : String) (opt : WriteOptions)
    (batches : List Record) (st : WriteLoopState)
    (h : ∀ rec ∈ batches, rec.numRows = 0) :
    spaceWriteLoop root opt batches st = st := by
  induction batches generalizing st with
  | nil => rfl
  | cons rec rest ih =>
      have h0 : rec.numRows = 0 := h rec (List.mem_cons_self _ _)
      rw [spaceWriteLoop, if_pos h0]
      exact ih st (fun r hr => h r (List.mem_cons_of_mem _ hr))

/-- When no batch has a positive row count, the Delete batch loop leaves
its state untouched. -/
theorem spaceDeleteLoop_all_zero (root : String) (batches : List Record)
    (st : DeleteLoopState) (h : ∀ rec ∈ batches, rec.numRows = 0) :
    spaceDeleteLoop root batches st = st := by
  induction batches generalizing st with
  | nil => rfl
  | cons rec rest ih =>
      have h0 : rec.numRows = 0 := h rec (List.mem_cons_self _ _)
      rw [spaceDeleteLoop, if_pos h0]
      exact ih st (fun r hr => h r (List.mem_cons_of_mem _ hr))

/-- Once the Delete loop has a writer, it keeps one. -/
theorem spaceDeleteLoop_writer_isSome (root : String) (batches : List Record)
    (st : DeleteLoopState) (hst : st.writer.isSome) :
    (spaceDeleteLoop root batches st).writer.isSome := by
  induction batches generalizing st with
  | nil => exact hst
  | cons rec rest ih =>
      rw [spaceDeleteLoop]
      by_cases h0 : rec.numRows = 0
      · rw [if_pos h0]; exact ih st hst
      · rw [if_neg h0]
        apply ih
        cases hw : st.writer with
        | none => simp
        | some w => simp [hw]

/-- A positive-row batch forces the Delete loop to create a writer. -/
theorem spaceDeleteLoop_creates_writer (root : String) (batches : List Record)
    (st : DeleteLoopState) (h : ∃ rec ∈ batches, 0 < rec.numRows) :
    (spaceDeleteLoop root batches st).writer.isSome := by
  induction batches generalizing st with
  | nil => rcases h with ⟨r, hr, _⟩; cases hr
  | cons rec rest ih =>
      rw [spaceDeleteLoop]
      by_cases h0 : rec.numRows = 0
      · rw [if_pos h0]
        apply ih
        rcases h with ⟨r, hr, hpos⟩
        rcases List.mem_cons.mp hr with rfl | hr2
        · omega
        · exact ⟨r, hr2, hpos⟩
      · rw [if_neg h0]
        apply spaceDeleteLoop_writer_isSome
        cases hw : st.writer with
        | none => simp
        | some w => simp [hw]

/-- Evaluation of `spaceWrite` when the schema matches and the manifest
save succeeds. -/
theorem spaceWrite_eq (s : SpaceState) (fs : Fs) (rs : List String)
    (batches : List Record) (opt : WriteOptions)
    (hs : s.manifest.schemaFields = rs) (hok : fs.saveOk = true) :
    spaceWrite s fs rs batches opt =
      { err := none,
        state := { s with
          manifest :=
            writePublishedManifest s (spaceWriteLoop s.path opt batches (initialWriteLoopState s)),
          nextManifestVersion := s.nextManifestVersion + 1 },
        opened := (spaceWriteLoop s.path opt batches (initialWriteLoopState s)).opened,
        published :=
          [writePublishedManifest s (spaceWriteLoop s.path opt batches (initialWriteLoopState s))] } := by
  unfold spaceWrite
  rw [if_neg (not_not_intro hs), if_pos hok]

/-- The manifests a `spaceWrite` call publishes: none, or exactly the
one built by `writePublishedManifest`. -/
theorem spaceWrite_published_cases (s : SpaceState) (fs : Fs) (rs : List String)
    (batches : List Record) (opt : WriteOptions) :
    (spaceWrite s fs rs batches opt).published = [] ∨
    (spaceWrite s fs rs batches opt).published =
      [writePublishedManifest s (spaceWriteLoop s.path opt batches (initialWriteLoopState s))] := by
  unfold spaceWrite
  split
  · exact Or.inl rfl
  · split
    · exact Or.inr rfl
    · exact Or.inl rfl

/-- The manifests a `spaceDelete` call publishes: none, or exactly the
one built by `deletePublishedManifest`. -/
theorem spaceDelete_published_cases (s : SpaceState) (fs : Fs) (batches : List Record) :
    (spaceDelete s fs batches).published = [] ∨
    (spaceDelete s fs batches).published = [deletePublishedManifest s] := by
  unfold spaceDelete spaceDeleteFinish
  split
  · exact Or.inl rfl
  · split
    · exact Or.inr rfl
    · exact Or.inl rfl

/-!  Claim theorems. -/

/-- C1 (code bug): a Space opened over a manifest that carries a delete
fragment hands `MakeRecordReader` an empty delete-fragment vector — the
`space.init()` call that would copy the manifest's delete fragments into
the Space is commented out in `Open` (space.go:377), and `Delete` never
appends to the vector either — so the manifest's delete fragments do not
contribute to the read, contrary to the claim.  Had `init` run, the
vector would hold exactly the manifest's delete fragments. -/
theorem read_ignores_manifest_delete_fragments :
    readDeleteFragments (openResult "/s" exManifestDel 2) = [] ∧
    (openResult "/s" exManifestDel 2).manifest.deleteFragments = [exDeleteFrag] ∧
    readDeleteFragments (spaceInit (openResult "/s" exManifestDel 2)) = [exDeleteFrag] ∧
    (spaceDelete (openResult "/s" exManifestDel 2) fsOk [recOne]).state.deleteFragments = [] := by
  decide

/-- C3 (counterexample): on the first one-row batch the C++
`DefaultSpace::Write` offset column is `[1]`, not the `[0]` the claim
requires (`std::iota` starts from `offset = 1`, default_space.cpp:77,96),
while the Go `Space.write` produces `[0]`. -/
theorem cpp_offset_first_batch_not_zero_based :
    cppOffsetValues cppInitialOffset 1 = [1] ∧ goOffsetValues 1 = [0] ∧
    cppOffsetValues cppInitialOffset 1 ≠ goOffsetValues 1 := by
  decide

/-- C3 (amended): offsets are batch-local in both implementations — the
column appended to the projected scalar record depends only on the
batch's row count — with the Go values being `0, 1, …, r-1` and the C++
values being `1, 2, …, r` for an `r`-row batch. -/
theorem offset_column_batch_local (schema : List String) (rec : Record) :
    (buildRecord schema rec true).getLast? =
      some ((goOffsetValues rec.numRows).map CellValue.int) ∧
    goOffsetValues rec.numRows = (List.range rec.numRows).map (fun i => (i : Int)) ∧
    cppOffsetValues cppInitialOffset rec.numRows =
      (List.range rec.numRows).map (fun i => 1 + (i : Int)) := by
  refine ⟨?_, rfl, rfl⟩
  unfold buildRecord
  rw [if_pos rfl, List.getLast?_concat]

/-- C4 (code bug): the string overload of the delete-set visitor
emplaces a new key with an EMPTY version vector (deleteset.cpp:35), so
the first tombstone's version is dropped for string primary keys — one
string tombstone for key "a" at version 7 yields the entry ("a", []),
and two tombstones at versions 7 and 8 yield ("a", [8]) — while the
int64 overload records every version as the claim states. -/
theorem string_visitor_drops_first_version :
    visitString [] ["a"] [7] = [("a", [])] ∧
    visitInt64 [] [5] [7] = [(5, [7])] ∧
    visitString [] ["a", "a"] [7, 8] = [("a", [8])] ∧
    visitInt64 [] [5, 5] [7, 8] = [(5, [7, 8])] := by
  decide

/-- C5 (code bug): `safeSaveManifest` commits the manifest for version 7
under root "/s" to "/s/manifest/7.mf" (via the temporary
"/s/manifest/7.mf.tmp"), but `Open` builds its load path from the Space
root instead of the manifest directory (space.go:369) and so reads
"/s/7.mf" — a path where no manifest was ever saved. -/
theorem manifest_path_roundtrip_mismatch :
    safeSaveTmpPath "/s" 7 = "/s/manifest/7.mf.tmp" ∧
    safeSaveFinalPath "/s" 7 = "/s/manifest/7.mf" ∧
    openLoadPath "/s" 7 = "/s/7.mf" ∧
    openLoadPath "/s" 7 ≠ safeSaveFinalPath "/s" 7 := by
  decide

/-- C7 (counterexample): the C++ `DefaultSpace` constructor does not
check the vector column at all — with schema fields `["pk"]` and a
declared vector column "vec" absent from the schema, the constructor
does not throw, although the claim requires a SchemaInvalid failure. -/
theorem ctor_ignores_vector_column :
    (["pk"] : List String).contains "vec" = false ∧
    defaultSpaceCtorThrows ["pk"]
      { primaryColumn := "pk", versionColumn := "", vectorColumn := "vec" } = false := by
  decide

/-- C7 (amended): the constructor throws exactly when the primary column
is absent from the schema, or a version column is declared (non-empty)
and absent; the vector column is never validated. -/
theorem ctor_throw_iff (fields : List String) (o : SpaceOptions) :
    defaultSpaceCtorThrows fields o = true ↔
      (fields.contains o.primaryColumn = false ∨
        (o.versionColumn ≠ "" ∧ fields.contains o.versionColumn = false)) := by
  unfold defaultSpaceCtorThrows
  cases h1 : fields.contains o.primaryColumn <;>
    cases h2 : fields.contains o.versionColumn <;>
      by_cases h3 : o.versionColumn = "" <;>
        simp [h1, h2, h3]

/-- C2 (counterexample): a Write whose stream yields no batch at all
still publishes a manifest and advances the version — against `exSpace`
(current version 0) it publishes one manifest and leaves the Space at
version 1, contradicting the claim that no manifest is published and the
version is unchanged. -/
theorem write_empty_stream_publishes :
    (spaceWrite exSpace fsOk exFields [] exOpt).published ≠ [] ∧
    (spaceWrite exSpace fsOk exFields [] exOpt).state.manifest.version = 1 ∧
    exSpace.manifest.version = 0 := by
  decide

/-- C2 (amended): a Write whose stream yields no positive-row batch
(schema matching, manifest save succeeding) succeeds and opens no data
file, but it does publish exactly one new manifest — the current one at
version `nextManifestVersion` with one empty scalar and one empty vector
fragment appended — swaps it in and advances `nextManifestVersion`. -/
theorem write_empty_stream_amended (s : SpaceState) (fs : Fs) (rs : List String)
    (batches : List Record) (opt : WriteOptions)
    (hs : s.manifest.schemaFields = rs)
    (hb : ∀ rec ∈ batches, rec.numRows = 0)
    (hok : fs.saveOk = true) :
    (spaceWrite s fs rs batches opt).err = none ∧
    (spaceWrite s fs rs batches opt).opened = [] ∧
    (spaceWrite s fs rs batches opt).published =
      [writePublishedManifest s (initialWriteLoopState s)] ∧
    (writePublishedManifest s (initialWriteLoopState s)).scalarFragments =
      s.manifest.scalarFragments ++ [{ fragmentId := s.nextManifestVersion, files := [] }] ∧
    (writePublishedManifest s (initialWriteLoopState s)).vectorFragments =
      s.manifest.vectorFragments ++ [{ fragmentId := s.nextManifestVersion, files := [] }] ∧
    (spaceWrite s fs rs batches opt).state.manifest.version = s.nextManifestVersion ∧
    (spaceWrite s fs rs batches opt).state.nextManifestVersion = s.nextManifestVersion + 1 := by
  have hloop := spaceWriteLoop_all_zero s.path opt batches (initialWriteLoopState s) hb
  rw [spaceWrite_eq s fs rs batches opt hs hok, hloop]
  exact ⟨rfl, rfl, rfl, rfl, rfl, rfl, rfl⟩

/-- Witness for the amended C2 theorem at a concrete empty stream. -/
theorem write_empty_stream_amended_witness :
    (spaceWrite exSpace fsOk exFields [recZero] exOpt).err = none ∧
    (spaceWrite exSpace fsOk exFields [recZero] exOpt).opened = [] ∧
    (spaceWrite exSpace fsOk exFields [recZero] exOpt).state.manifest.version = 1 ∧
    (spaceWrite exSpace fsOk exFields [recZero] exOpt).state.nextManifestVersion = 2 := by
  have h := write_empty_stream_amended exSpace fsOk exFields [recZero] exOpt rfl
    (by decide) rfl
  exact ⟨h.1, h.2.1, h.2.2.2.2.2.1, h.2.2.2.2.2.2⟩

/-- C10: a Delete whose stream yields no positive-row batch succeeds,
opens no delete file, publishes no manifest and leaves the Space state —
manifest and `nextManifestVersion` included — untouched; by contrast a
Write over the very same stream still publishes a manifest. -/
theorem delete_empty_stream_noop (s : SpaceState) (fs : Fs) (batches : List Record)
    (hb : ∀ rec ∈ batches, rec.numRows = 0) :
    spaceDelete s fs batches =
      { err := none, state := s, opened := [], published := [] } ∧
    (∀ (rs : List String) (opt : WriteOptions),
      s.manifest.schemaFields = rs → fs.saveOk = true →
      (spaceWrite s fs rs batches opt).published ≠ []) := by
  have hloop := spaceDeleteLoop_all_zero s.path batches
    { writer := none, deleteFile := "", fresh := 0, opened := [] } hb
  constructor
  · unfold spaceDelete
    rw [hloop]
    rfl
  · intro rs opt hs hok
    rw [spaceWrite_eq s fs rs batches opt hs hok]
    simp

/-- Witness for the C10 theorem at a concrete stream of one empty batch. -/
theorem delete_empty_stream_noop_witness :
    spaceDelete exSpace fsOk [recZero] =
      { err := none, state := exSpace, opened := [], published := [] } ∧
    (spaceWrite exSpace fsOk exFields [recZero] exOpt).published ≠ [] := by
  have h := delete_empty_stream_noop exSpace fsOk [recZero] (by decide)
  exact ⟨h.1, h.2 exFields exOpt rfl rfl⟩

/-- C6: when persisting the new manifest fails, Write, Delete and
WriteBlob all return an error, publish nothing, and leave the Space
state — the in-memory manifest pointer and `nextManifestVersion`
included — exactly as it was.  (For Delete the save is only attempted
once some positive-row batch created the delete writer, hence the guard
on the error conjunct; the state is untouched either way.) -/
theorem manifest_save_failure_atomic (s : SpaceState) (fs : Fs) (rs : List String)
    (batches : List Record) (opt : WriteOptions) (content : List Nat)
    (name : String) (rep : Bool) (hfail : fs.saveOk = false) :
    ((spaceWrite s fs rs batches opt).state = s ∧
      (spaceWrite s fs rs batches opt).err.isSome ∧
      (spaceWrite s fs rs batches opt).published = []) ∧
    ((spaceDelete s fs batches).state = s ∧
      (spaceDelete s fs batches).published = [] ∧
      ((∃ rec ∈ batches, 0 < rec.numRows) → (spaceDelete s fs batches).err.isSome)) ∧
    ((spaceWriteBlob s fs content name rep).state = s ∧
      (spaceWriteBlob s fs content name rep).err.isSome ∧
      (spaceWriteBlob s fs content name rep).published = []) := by
  refine ⟨?_, ?_, ?_⟩
  · unfold spaceWrite
    split
    · exact ⟨rfl, rfl, rfl⟩
    · rw [if_neg (by rw [hfail]; exact Bool.false_ne_true)]
      exact ⟨rfl, rfl, rfl⟩
  · unfold spaceDelete spaceDeleteFinish
    split
    · refine ⟨rfl, rfl, fun hex => ?_⟩
      have := spaceDeleteLoop_creates_writer s.path batches
        { writer := none, deleteFile := "", fresh := 0, opened := [] } hex
      simp_all
    · rw [if_neg (by rw [hfail]; exact Bool.false_ne_true)]
      exact ⟨rfl, rfl, fun _ => rfl⟩
  · by_cases hb2 : (!rep && s.manifest.hasBlob name) = true
    · simp [spaceWriteBlob, hb2]
    · by_cases hn : fs.blobWriteBytes content.length = content.length
      · simp [spaceWriteBlob, hb2, hn, hfail]
      · simp [spaceWriteBlob, hb2, hn]

/-- Witness for the C6 theorem on a concrete failing filesystem. -/
theorem manifest_save_failure_atomic_witness :
    (spaceWrite exSpace fsFail exFields [recOne] exOpt).state = exSpace ∧
    (spaceWrite exSpace fsFail exFields [recOne] exOpt).err.isSome ∧
    (spaceDelete exSpace fsFail [recOne]).state = exSpace ∧
    (spaceDelete exSpace fsFail [recOne]).err.isSome ∧
    (spaceWriteBlob exSpace fsFail [1, 2] "b" false).state = exSpace ∧
    (spaceWriteBlob exSpace fsFail [1, 2] "b" false).err.isSome := by
  have h := manifest_save_failure_atomic exSpace fsFail exFields [recOne] exOpt
    [1, 2] "b" false rfl
  exact ⟨h.1.1, h.1.2.1, h.2.1.1,
    h.2.1.2.2 ⟨recOne, by simp, by decide⟩, h.2.2.1, h.2.2.2.1⟩

/-- C8: WriteBlob fails `BlobAlreadyExists` — writing nothing — when
`replace` is false and the manifest already carries the name; in every
other case it opens exactly one fresh file, placed under the Space's
blob directory, and when the reported written byte count differs from
the content length it fails with the short-write error; no manifest is
published in either failure case. -/
theorem writeBlob_error_handling (s : SpaceState) (fs : Fs) (content : List Nat)
    (name : String) :
    (s.manifest.hasBlob name = true →
      spaceWriteBlob s fs content name false =
        { err := some GoError.blobAlreadyExist, state := s, opened := [], published := [] }) ∧
    (∀ rep : Bool, (rep = true ∨ s.manifest.hasBlob name = false) →
      (spaceWriteBlob s fs content name rep).opened =
        [getBlobFilePath (getBlobDir s.path)] ∧
      getBlobFilePath (getBlobDir s.path) = s.path ++ "/blob" ++ "/b0" ∧
      (fs.blobWriteBytes content.length ≠ content.length →
        (spaceWriteBlob s fs content name rep).err =
          some (GoError.shortWrite (fs.blobWriteBytes content.length) content.length) ∧
        (spaceWriteBlob s fs content name rep).published = [])) := by
  constructor
  · intro hhas
    unfold spaceWriteBlob
    rw [if_pos (by simp [hhas])]
  · intro rep hrep
    have hcond : (!rep && s.manifest.hasBlob name) = false := by
      rcases hrep with rfl | h
      · simp
      · simp [h]
    by_cases hn : fs.blobWriteBytes content.length = content.length
    · refine ⟨?_, rfl, fun hshort => absurd hn hshort⟩
      by_cases hsave : fs.saveOk = true
      · simp [spaceWriteBlob, hcond, hn, hsave]
      · simp [spaceWriteBlob, hcond, hn, hsave]
    · refine ⟨?_, rfl, fun _ => ⟨?_, ?_⟩⟩
      · simp [spaceWriteBlob, hcond, hn]
      · simp [spaceWriteBlob, hcond, hn]
      · simp [spaceWriteBlob, hcond, hn]

/-- Witness for the C8 theorem: a duplicate name with `replace = false`
and a short write on a fresh name. -/
theorem writeBlob_error_handling_witness :
    spaceWriteBlob exSpaceBlob fsOk [1, 2] "b" false =
      { err := some GoError.blobAlreadyExist, state := exSpaceBlob,
        opened := [], published := [] } ∧
    (spaceWriteBlob exSpace fsShort [1, 2] "b" false).err =
      some (GoError.shortWrite 0 2) ∧
    (spaceWriteBlob exSpace fsShort [1, 2] "b" false).published = [] ∧
    (spaceWriteBlob exSpace fsShort [1, 2] "b" false).opened =
      [getBlobFilePath (getBlobDir exSpace.path)] := by
  have h1 := writeBlob_error_handling exSpaceBlob fsOk [1, 2] "b"
  have h2 := writeBlob_error_handling exSpace fsShort [1, 2] "b"
  refine ⟨h1.1 (by decide), ?_, ?_, (h2.2 false (Or.inr (by decide))).1⟩
  · exact ((h2.2 false (Or.inr (by decide))).2.2 (by decide)).1
  · exact ((h2.2 false (Or.inr (by decide))).2.2 (by decide)).2

/-- The manifest built by a publishing Write keeps the id bound and the
scalar-vector pairing, and the two appended fragments carry the new
version as their id. -/
theorem writePublishedManifest_props (s : SpaceState) (st : WriteLoopState)
    (hb : fragIdsBounded s.manifest) (hp : svPaired s.manifest)
    (hv : s.manifest.version < s.nextManifestVersion) :
    fragIdsBounded (writePublishedManifest s st) ∧
    svPaired (writePublishedManifest s st) ∧
    (∃ sf, (writePublishedManifest s st).scalarFragments.getLast? = some sf ∧
      sf.fragmentId = (writePublishedManifest s st).version) ∧
    (∃ vf, (writePublishedManifest s st).vectorFragments.getLast? = some vf ∧
      vf.fragmentId = (writePublishedManifest s st).version) := by
  obtain ⟨hbs, hbv, hbd⟩ := hb
  refine ⟨⟨?_, ?_, ?_⟩, ?_, ?_, ?_⟩
  · intro f hf
    rcases List.mem_append.mp hf with h | h
    · exact le_trans (hbs f h) (le_of_lt hv)
    · rcases List.mem_singleton.mp h with rfl
      exact le_refl _
  · intro f hf
    rcases List.mem_append.mp hf with h | h
    · exact le_trans (hbv f h) (le_of_lt hv)
    · rcases List.mem_singleton.mp h with rfl
      exact le_refl _
  · intro f hf
    exact le_trans (hbd f hf) (le_of_lt hv)
  · intro v
    constructor
    · rintro ⟨f, hf, hid⟩
      rcases List.mem_append.mp hf with h | h
      · obtain ⟨g, hg, hgid⟩ := (hp v).mp ⟨f, h, hid⟩
        exact ⟨g, List.mem_append_left _ hg, hgid⟩
      · rcases List.mem_singleton.mp h with rfl
        exact ⟨{ st.vectorFragment with fragmentId := s.nextManifestVersion },
          List.mem_append_right _ (List.mem_singleton.mpr rfl), hid⟩
    · rintro ⟨f, hf, hid⟩
      rcases List.mem_append.mp hf with h | h
      · obtain ⟨g, hg, hgid⟩ := (hp v).mpr ⟨f, h, hid⟩
        exact ⟨g, List.mem_append_left _ hg, hgid⟩
      · rcases List.mem_singleton.mp h with rfl
        exact ⟨{ st.scalarFragment with fragmentId := s.nextManifestVersion },
          List.mem_append_right _ (List.mem_singleton.mpr rfl), hid⟩
  · exact ⟨{ st.scalarFragment with fragmentId := s.nextManifestVersion },
      List.getLast?_concat _, rfl⟩
  · exact ⟨{ st.vectorFragment with fragmentId := s.nextManifestVersion },
      List.getLast?_concat _, rfl⟩

/-- The manifest built by a publishing Delete keeps the id bound and the
scalar-vector pairing, and the appended delete fragment carries the new
version as its id. -/
theorem deletePublishedManifest_props (s : SpaceState)
    (hb : fragIdsBounded s.manifest) (hp : svPaired s.manifest)
    (hv : s.manifest.version < s.nextManifestVersion) :
    fragIdsBounded (deletePublishedManifest s) ∧
    svPaired (deletePublishedManifest s) ∧
    (∃ df, (deletePublishedManifest s).deleteFragments.getLast? = some df ∧
      df.fragmentId = (deletePublishedManifest s).version) := by
  obtain ⟨hbs, hbv, hbd⟩ := hb
  refine ⟨⟨?_, ?_, ?_⟩, ?_, ?_⟩
  · intro f hf
    exact le_trans (hbs f hf) (le_of_lt hv)
  · intro f hf
    exact le_trans (hbv f hf) (le_of_lt hv)
  · intro f hf
    rcases List.mem_append.mp hf with h | h
    · exact le_trans (hbd f h) (le_of_lt hv)
    · rcases List.mem_singleton.mp h with rfl
      exact le_refl _
  · exact hp
  · exact ⟨{ fragmentId := s.nextManifestVersion, files := [] },
      List.getLast?_concat _, rfl⟩

/-- C9: in every manifest published by a successful Write or Delete —
starting from a state whose manifest satisfies the fragment-id bound and
the scalar-vector pairing and whose `nextManifestVersion` lies strictly
above the current version — every fragment id is at most the manifest
version, a scalar fragment with a given id exists iff a vector fragment
with that id exists, and the fragments appended by that call (last of
their lists) carry the new manifest version as their id. -/
theorem published_manifest_invariants (s : SpaceState) (fs : Fs) (rs : List String)
    (batches : List Record) (opt : WriteOptions)
    (hb : fragIdsBounded s.manifest) (hp : svPaired s.manifest)
    (hv : s.manifest.version < s.nextManifestVersion) :
    (∀ m ∈ (spaceWrite s fs rs batches opt).published,
      fragIdsBounded m ∧ svPaired m ∧
      (∃ sf, m.scalarFragments.getLast? = some sf ∧ sf.fragmentId = m.version) ∧
      (∃ vf, m.vectorFragments.getLast? = some vf ∧ vf.fragmentId = m.version)) ∧
    (∀ m ∈ (spaceDelete s fs batches).published,
      fragIdsBounded m ∧ svPaired m ∧
      (∃ df, m.deleteFragments.getLast? = some df ∧ df.fragmentId = m.version)) := by
  constructor
  · intro m hm
    rcases spaceWrite_published_cases s fs rs batches opt with hc | hc
    · rw [hc] at hm
      cases hm
    · rw [hc] at hm
      rcases List.mem_singleton.mp hm with rfl
      exact writePublishedManifest_props s _ ⟨hb.1, hb.2.1, hb.2.2⟩ hp hv
  · intro m hm
    rcases spaceDelete_published_cases s fs batches with hc | hc
    · rw [hc] at hm
      cases hm
    · rw [hc] at hm
      rcases List.mem_singleton.mp hm with rfl
      exact deletePublishedManifest_props s ⟨hb.1, hb.2.1, hb.2.2⟩ hp hv

/-- Witness for the C9 theorem: the concrete manifest published by an
empty-stream Write against the fresh space satisfies the invariants. -/
theorem published_manifest_invariants_witness :
    fragIdsBounded exPublished ∧ svPaired exPublished ∧
    (spaceWrite exSpace fsOk exFields [] exOpt).published = [exPublished] := by
  have h := published_manifest_invariants exSpace fsOk exFields [] exOpt
    (by decide) (fun v => by simp [exSpace, exManifest]) (by decide)
  have hmem : exPublished ∈ (spaceWrite exSpace fsOk exFields [] exOpt).published := by
    decide
  have h2 := h.1 exPublished hmem
  exact ⟨h2.1, h2.2.1, by decide⟩

end MilvusStorage

